import Mathlib

/-!
Verification development for the adk2goose session-scoped streaming bridge.

The Go sources are shallowly embedded:
* `internal/gooseclient` data types become Lean structures (Go pointers that
  may be `nil` become `Option`, `int32` counters become `Int`, `map[string]any`
  JSON payloads become association lists over a `Json` value type).
* `internal/translator/tools.go` becomes pure functions.  A Go nil-pointer
  dereference (a panic) is modelled as `Except.error`; the translator's Go
  signature returns an `error` value that is always `nil`, so every
  `Except.error` produced here corresponds to a runtime panic, not to a
  returned error.
* `internal/proxy/session.go` becomes explicit state passing over a
  `SessionManager` record; the backend HTTP calls (`StartAgent`, `StopAgent`)
  are external collaborators and are passed in as their outcomes.
* the line-oriented SSE stream parser of `gooseclient.Client.Reply` becomes a
  pure function over the list of raw lines, parameterised by the JSON decoder
  (JSON decoding mechanics are an external collaborator).
-/

/-- JSON values, modelling the `any` payloads carried by `map[string]any`
fields after JSON decoding. -/
inductive Json where
  | null
  | bool (b : Bool)
  | num (n : Int)
  | str (s : String)
  | arr (xs : List Json)
  | obj (fields : List (String × Json))

mutual

/-- Model of Go `json.Marshal` on a `Json` value.  On values that originate
from decoded JSON, `json.Marshal` never fails, so the model is total.  The
exact wire text is irrelevant to every claim below. -/
def Json.encode : Json → String
  | .null => "null"
  | .bool b => if b then "true" else "false"
  | .num n => toString n
  | .str s => "\"" ++ s ++ "\""
  | .arr xs => "[" ++ Json.encodeList xs ++ "]"
  | .obj fs => "\x7b" ++ Json.encodeFields fs ++ "\x7d"

def Json.encodeList : List Json → String
  | [] => ""
  | [x] => Json.encode x
  | x :: y :: rest => Json.encode x ++ "," ++ Json.encodeList (y :: rest)

def Json.encodeFields : List (String × Json) → String
  | [] => ""
  | [(k, v)] => "\"" ++ k ++ "\":" ++ Json.encode v
  | (k, v) :: f :: rest =>
      "\"" ++ k ++ "\":" ++ Json.encode v ++ "," ++ Json.encodeFields (f :: rest)

end

/-- `gooseclient.ToolCall`: a tool invocation within a tool request. -/
structure ToolCall where
  name : String
  arguments : List (String × Json)

mutual

/-- `gooseclient.MessageContent`: discriminated union over the `Type` field.
Go's flat struct of optional fields is kept as-is; pointer fields are
`Option`, string/bool fields default to their Go zero values at use sites. -/
inductive MessageContent where
  | mk (type : String) (text : String) (data : String) (mimeType : String)
      (id : String) (toolCall : Option ToolCall)
      (toolMetadata : List (String × Json)) (toolResult : Option ToolResult)
      (toolName : String) (arguments : List (String × Json)) (prompt : String)
      (thinking : String) (signature : String)

/-- `gooseclient.ToolResult`: the output of a tool execution. -/
inductive ToolResult where
  | mk (content : List MessageContent) (isError : Bool)
      (structuredContent : Option (List (String × Json)))

end

def MessageContent.type : MessageContent → String
  | .mk t _ _ _ _ _ _ _ _ _ _ _ _ => t

def MessageContent.text : MessageContent → String
  | .mk _ t _ _ _ _ _ _ _ _ _ _ _ => t

def MessageContent.data : MessageContent → String
  | .mk _ _ d _ _ _ _ _ _ _ _ _ _ => d

def MessageContent.mimeType : MessageContent → String
  | .mk _ _ _ m _ _ _ _ _ _ _ _ _ => m

def MessageContent.id : MessageContent → String
  | .mk _ _ _ _ i _ _ _ _ _ _ _ _ => i

def MessageContent.toolCall : MessageContent → Option ToolCall
  | .mk _ _ _ _ _ tc _ _ _ _ _ _ _ => tc

def MessageContent.toolMetadata : MessageContent → List (String × Json)
  | .mk _ _ _ _ _ _ tm _ _ _ _ _ _ => tm

def MessageContent.toolResult : MessageContent → Option ToolResult
  | .mk _ _ _ _ _ _ _ tr _ _ _ _ _ => tr

def MessageContent.toolName : MessageContent → String
  | .mk _ _ _ _ _ _ _ _ tn _ _ _ _ => tn

def MessageContent.arguments : MessageContent → List (String × Json)
  | .mk _ _ _ _ _ _ _ _ _ a _ _ _ => a

def MessageContent.prompt : MessageContent → String
  | .mk _ _ _ _ _ _ _ _ _ _ p _ _ => p

def MessageContent.thinking : MessageContent → String
  | .mk _ _ _ _ _ _ _ _ _ _ _ th _ => th

def MessageContent.signature : MessageContent → String
  | .mk _ _ _ _ _ _ _ _ _ _ _ _ s => s

def ToolResult.content : ToolResult → List MessageContent
  | .mk c _ _ => c

def ToolResult.isError : ToolResult → Bool
  | .mk _ e _ => e

def ToolResult.structuredContent : ToolResult → Option (List (String × Json))
  | .mk _ _ sc => sc

/-- A `MessageContent` whose fields other than `type` all hold their Go zero
values (used to build concrete test inputs). -/
def blankContent (type : String) : MessageContent :=
  .mk type "" "" "" "" none [] none "" [] "" "" ""

/-- A text-typed `MessageContent` carrying only `text` (test input helper). -/
def mkTextContent (text : String) : MessageContent :=
  .mk "text" text "" "" "" none [] none "" [] "" "" ""

/-- `gooseclient.MessageMetadata`. -/
structure MessageMetadata where
  userVisible : Bool
  agentVisible : Bool

/-- `gooseclient.GooseMessage`. -/
structure GooseMessage where
  id : String := ""
  role : String := ""
  created : Int := 0
  content : List MessageContent := []
  metadata : Option MessageMetadata := none

/-- `gooseclient.TokenState`: token usage counters (`int32` in Go). -/
structure TokenState where
  inputTokens : Int := 0
  outputTokens : Int := 0
  totalTokens : Int := 0
  accumulatedInputTokens : Int := 0
  accumulatedOutputTokens : Int := 0
  accumulatedTotalTokens : Int := 0

/-- `gooseclient.SSEEvent`: a decoded frame of the Goose SSE stream.  `Type`
is an arbitrary string discriminator; pointer fields may be absent. -/
structure SSEEvent where
  type : String := ""
  message : Option GooseMessage := none
  error : String := ""
  reason : String := ""
  tokenState : Option TokenState := none
  model : String := ""
  mode : String := ""

/-- `genai.FunctionCall` (only the fields the translator reads/writes). -/
structure FunctionCall where
  id : String := ""
  name : String := ""
  args : List (String × Json) := []

/-- `genai.FunctionResponse` (only the fields the translator reads/writes). -/
structure FunctionResponse where
  id : String := ""
  name : String := ""
  response : List (String × Json) := []

/-- `genai.Part` (only the fields the translator reads/writes). -/
structure GenaiPart where
  text : String := ""
  thought : Bool := false
  functionCall : Option FunctionCall := none
  functionResponse : Option FunctionResponse := none

/-- `genai.Content`. -/
structure Content where
  parts : List GenaiPart := []
  role : String := ""

/-- `genai.GenerateContentResponseUsageMetadata` (the three counters the
translator writes). -/
structure GenerateContentResponseUsageMetadata where
  promptTokenCount : Int := 0
  candidatesTokenCount : Int := 0
  totalTokenCount : Int := 0

/-- `translator.ADKEventActions`. -/
structure ADKEventActions where
  stateDelta : List (String × Json) := []

/-- `translator.ADKEvent`: one outbound ADK SSE event.  The Go field
`Partial` is named `partialFlag` here. -/
structure ADKEvent where
  id : String := ""
  time : Int := 0
  invocationID : String := ""
  branch : String := ""
  author : String := ""
  partialFlag : Bool := false
  content : Option Content := none
  turnComplete : Bool := false
  interrupted : Bool := false
  errorCode : String := ""
  errorMessage : String := ""
  actions : Option ADKEventActions := none
  usageMetadata : Option GenerateContentResponseUsageMetadata := none

/-- The message of the Go runtime's nil-pointer panic, used as the
`Except.error` payload wherever the embedded code would dereference `nil`. -/
def nilDereference : String :=
  "runtime error: invalid memory address or nil pointer dereference"

/-- `translator.GooseTokenStateToUsageMetadata`. -/
def GooseTokenStateToUsageMetadata (ts : TokenState) :
    GenerateContentResponseUsageMetadata :=
  { promptTokenCount := ts.inputTokens
    candidatesTokenCount := ts.outputTokens
    totalTokenCount := ts.totalTokens }

/-- The loop of `translator.extractToolResultText`: return the text of the
first content entry with `Type == "text"` and non-empty `Text`. -/
def firstNonEmptyText : List MessageContent → Option String
  | [] => none
  | c :: rest =>
      if c.type = "text" ∧ c.text ≠ "" then some c.text
      else firstNonEmptyText rest

/-- `translator.extractToolResultText`.  The Go receiver is a pointer that is
checked against `nil`, hence the `Option`; `json.Marshal` on the structured
payload is total in the model (see `Json.encode`). -/
def extractToolResultText : Option ToolResult → String
  | none => ""
  | some tr =>
      match firstNonEmptyText tr.content with
      | some t => t
      | none =>
          match tr.structuredContent with
          | some sc => Json.encode (Json.obj sc)
          | none => ""

/-- One iteration of the content loop of `translator.GooseMessageToADKContent`:
`none` when the part's type is unmapped (the part is skipped), `Except.error`
when the Go code would dereference a nil `ToolCall`. -/
def translateMessageContent (mc : MessageContent) : Except String (Option GenaiPart) :=
  if mc.type = "text" then
    .ok (some { text := mc.text })
  else if mc.type = "toolRequest" then
    match mc.toolCall with
    | none => .error nilDereference
    | some tc =>
        .ok (some { functionCall := some { id := mc.id, name := tc.name, args := tc.arguments } })
  else if mc.type = "toolResponse" then
    .ok (some { functionResponse := some (FunctionResponse.mk mc.id ""
      [("result", Json.str (extractToolResultText mc.toolResult))]) })
  else if mc.type = "thinking" ∨ mc.type = "reasoning" then
    .ok (some { text := if mc.thinking = "" then mc.text else mc.thinking
                thought := true })
  else
    .ok none

/-- The content loop of `translator.GooseMessageToADKContent`. -/
def goosePartsToADK : List MessageContent → Except String (List GenaiPart)
  | [] => .ok []
  | mc :: rest =>
      match translateMessageContent mc with
      | .error e => .error e
      | .ok p =>
          match goosePartsToADK rest with
          | .error e => .error e
          | .ok ps => .ok (p.toList ++ ps)

/-- `translator.GooseMessageToADKContent`.  The Go argument is a pointer; on
`nil` the first field read (`msg.Role`) panics, modelled as `Except.error`. -/
def GooseMessageToADKContent : Option GooseMessage → Except String Content
  | none => .error nilDereference
  | some msg =>
      match goosePartsToADK msg.content with
      | .error e => .error e
      | .ok parts =>
          .ok { parts := parts
                role := if msg.role = "assistant" then "model" else msg.role }

/-- `translator.GooseSSEEventToADKEvent`.  The generated id and timestamp
come from the clock; the two readings (`UnixNano` for the id, `Unix` for the
time field) are passed in as `nowNano`/`nowSec`.  The Go function's returned
`error` is always `nil`; `Except.error` here models a panic inside the call. -/
def GooseSSEEventToADKEvent (sse : SSEEvent) (invocationID : String)
    (nowNano nowSec : Int) : Except String (Option ADKEvent) :=
  if sse.type = "Message" then
    match GooseMessageToADKContent sse.message with
    | .error e => .error e
    | .ok content =>
        .ok (some { id := "evt_" ++ toString nowNano, time := nowSec
                    invocationID := invocationID, author := "goose"
                    content := some content })
  else if sse.type = "Finish" then
    .ok (some { id := "evt_" ++ toString nowNano, time := nowSec
                invocationID := invocationID, author := "goose"
                turnComplete := true
                usageMetadata :=
                  match sse.tokenState with
                  | some ts => some (GooseTokenStateToUsageMetadata ts)
                  | none => none })
  else if sse.type = "Error" then
    .ok (some { id := "evt_" ++ toString nowNano, time := nowSec
                invocationID := invocationID, author := "goose"
                errorCode := "GOOSE_ERROR", errorMessage := sse.error })
  else if sse.type = "Ping" then
    .ok none
  else
    .ok none

/-- Spec rendering for claim C7, literal wording: "the response text
extracted preferentially from the first text-typed sub-part of the tool
result, falling back to a JSON-encoded structured payload, and finally to
the empty string". -/
def extractToolResultTextSpec : Option ToolResult → String
  | none => ""
  | some tr =>
      match tr.content.find? (fun c => c.type == "text") with
      | some c => c.text
      | none =>
          match tr.structuredContent with
          | some sc => Json.encode (Json.obj sc)
          | none => ""

/-- Spec rendering for the amended claim C7: the preferred sub-part is the
first text-typed sub-part carrying non-empty text. -/
def extractToolResultTextAmended : Option ToolResult → String
  | none => ""
  | some tr =>
      match tr.content.find? (fun c => c.type == "text" && c.text != "") with
      | some c => c.text
      | none =>
          match tr.structuredContent with
          | some sc => Json.encode (Json.obj sc)
          | none => ""

/-- `strings.TrimPrefix(line, "data: ")` as used in `Client.Reply`. -/
def trimData (line : String) : String :=
  if line.startsWith "data: " then line.drop ("data: ".length) else line

/-- The line loop of `gooseclient.Client.Reply`'s producer goroutine, as a
pure function from the raw lines of the response body to the decoded events
sent on the channel, parameterised by the JSON decoder (`json.Unmarshal`
into `SSEEvent`; `none` models a decode error). -/
def parseReplyLines (decode : String → Option SSEEvent) :
    List String → List SSEEvent
  | [] => []
  | line :: rest =>
      if line = "" ∨ line.startsWith ":" then parseReplyLines decode rest
      else if line.startsWith "data: " then
        match decode (trimData line) with
        | none => parseReplyLines decode rest
        | some event => event :: parseReplyLines decode rest
      else parseReplyLines decode rest

/-- Association-list view of a Go `map[string]string`: lookup. -/
def mapLookup : List (String × String) → String → Option String
  | [], _ => none
  | p :: rest, k => if p.1 = k then some p.2 else mapLookup rest k

/-- Association-list view of a Go `map[string]string`: `delete(m, k)`. -/
def mapDelete : List (String × String) → String → List (String × String)
  | [], _ => []
  | p :: rest, k => if p.1 = k then mapDelete rest k else p :: mapDelete rest k

/-- Association-list view of a Go `map[string]string`: `m[k] = v`. -/
def mapInsert (m : List (String × String)) (k v : String) :
    List (String × String) :=
  (k, v) :: mapDelete m k

/-- `proxy.SessionManager`: the two mapping tables plus the configured
working directory (the HTTP client and the mutex are not state). -/
structure SessionManager where
  adkToGoose : List (String × String)
  gooseToADK : List (String × String)
  workingDir : String

/-- `proxy.NewSessionManager`. -/
def initialSessionManager (workingDir : String) : SessionManager :=
  { adkToGoose := [], gooseToADK := [], workingDir := workingDir }

/-- `SessionManager.GetOrCreate`, sequential semantics (the whole call runs
without interference; the interleaved semantics of the two lock-protected
sections is `stepCaller` below).  `startAgent` is the outcome of the backend
`StartAgent` call (the new Goose session id, or the transport/status error).
Returns the result, the new state, and whether `StartAgent` was invoked.
The duplicated lookup mirrors the double-checked locking of the source. -/
def SessionManager.GetOrCreate (sm : SessionManager) (adkSessionID : String)
    (startAgent : Except String String) :
    Except String String × SessionManager × Bool :=
  match mapLookup sm.adkToGoose adkSessionID with
  | some gooseID => (.ok gooseID, sm, false)
  | none =>
      match mapLookup sm.adkToGoose adkSessionID with
      | some gooseID => (.ok gooseID, sm, false)
      | none =>
          match startAgent with
          | .error err =>
              (.error ("start goose agent for ADK session " ++ adkSessionID
                ++ ": " ++ err), sm, true)
          | .ok respID =>
              (.ok respID,
               { sm with
                  adkToGoose := mapInsert sm.adkToGoose adkSessionID respID
                  gooseToADK := mapInsert sm.gooseToADK respID adkSessionID },
               true)

/-- The two failure cases of `SessionManager.Stop`: the locally constructed
"no goose session for ADK session ..." error, and whatever error the backend
`StopAgent` call returned.  The Go code builds these at two distinct return
sites, so they are distinguishable error values. -/
inductive StopError where
  | notFound (adkSessionID : String)
  | backend (err : String)

/-- `SessionManager.Stop`.  `stopAgent` is the outcome of the backend
`StopAgent` call for a given Goose session id.  Returns the result, the new
state, and the Goose session id the backend stop call was issued for
(`none` when the backend was never contacted). -/
def SessionManager.Stop (sm : SessionManager) (adkSessionID : String)
    (stopAgent : String → Except String Unit) :
    Except StopError Unit × SessionManager × Option String :=
  match mapLookup sm.adkToGoose adkSessionID with
  | none => (.error (.notFound adkSessionID), sm, none)
  | some gooseID =>
      let sm' : SessionManager :=
        { sm with
            adkToGoose := mapDelete sm.adkToGoose adkSessionID
            gooseToADK := mapDelete sm.gooseToADK gooseID }
      match stopAgent gooseID with
      | .error e => (.error (.backend e), sm', some gooseID)
      | .ok _ => (.ok (), sm', some gooseID)

/-- One operation of a `GetOrCreate`/`Stop` history.  For `getOrCreate`, the
`gooseSessionID` is the id the backend would return if `StartAgent` were
invoked at that point. -/
inductive SMOp where
  | getOrCreate (adkSessionID gooseSessionID : String)
  | stop (adkSessionID : String)

/-- State effect of one operation (results discarded). -/
def applySMOp (sm : SessionManager) : SMOp → SessionManager
  | .getOrCreate a g => (sm.GetOrCreate a (.ok g)).2.1
  | .stop a => (sm.Stop a (fun _ => .ok ())).2.1

/-- State after a sequence of `GetOrCreate`/`Stop` operations. -/
def runOps (sm : SessionManager) : List SMOp → SessionManager
  | [] => sm
  | op :: rest => runOps (applySMOp sm op) rest

/-- The two tables agree as a bijection: a forward entry `a ↦ g` exists
exactly when the reverse entry `g ↦ a` does. -/
def Bijective (sm : SessionManager) : Prop :=
  ∀ a g, mapLookup sm.adkToGoose a = some g ↔ mapLookup sm.gooseToADK g = some a

/-- The backend id an operation would install is fresh: if the operation is
a `getOrCreate` that actually reaches the creation path (no forward mapping),
its backend id is not yet a key of the reverse table. -/
def opFresh (sm : SessionManager) : SMOp → Bool
  | .getOrCreate a g =>
      (mapLookup sm.adkToGoose a).isSome || (mapLookup sm.gooseToADK g).isNone
  | .stop _ => true

/-- Every backend session-start along the history returns a fresh id. -/
def freshAlong (sm : SessionManager) : List SMOp → Bool
  | [] => true
  | op :: rest => opFresh sm op && freshAlong (applySMOp sm op) rest

/-- Where one `GetOrCreate` caller stands between the lock-protected
sections of `session.go`: not yet run, past the read-locked fast path
without finding a mapping, or returned with a Goose session id. -/
inductive CallerPhase where
  | pending
  | waiting
  | done (gooseSessionID : String)

/-- Global state of several concurrent `GetOrCreate` callers for one ADK
session id: the registry, the number of `StartAgent` calls issued so far,
the counter feeding fresh backend ids, and each caller's phase. -/
structure ConcurrentRun where
  sm : SessionManager
  createCalls : Nat
  nextGooseID : Nat
  callers : List CallerPhase

/-- Backend ids handed out by the stub backend, one per `StartAgent` call. -/
def freshGooseID (n : Nat) : String := "goose-" ++ toString n

/-- Initial state: empty registry, `n` callers about to enter. -/
def initRun (n : Nat) (workingDir : String) : ConcurrentRun :=
  { sm := initialSessionManager workingDir
    createCalls := 0
    nextGooseID := 0
    callers := List.replicate n CallerPhase.pending }

/-- One atomic step of caller `i`.  A `pending` caller runs the read-locked
fast path (session.go lines 35-40); a `waiting` caller runs the exclusive
section (lines 42-60): double-check, then `StartAgent` plus installation of
both mapping directions, all while holding the write lock.  Steps of a
finished caller, or of an out-of-range index, change nothing. -/
def stepCaller (adkID : String) (r : ConcurrentRun) (i : Nat) : ConcurrentRun :=
  match r.callers[i]? with
  | none => r
  | some CallerPhase.pending =>
      match mapLookup r.sm.adkToGoose adkID with
      | some g => { r with callers := r.callers.set i (CallerPhase.done g) }
      | none => { r with callers := r.callers.set i CallerPhase.waiting }
  | some CallerPhase.waiting =>
      match mapLookup r.sm.adkToGoose adkID with
      | some g => { r with callers := r.callers.set i (CallerPhase.done g) }
      | none =>
          let g := freshGooseID r.nextGooseID
          { sm := { r.sm with
                      adkToGoose := mapInsert r.sm.adkToGoose adkID g
                      gooseToADK := mapInsert r.sm.gooseToADK g adkID }
            createCalls := r.createCalls + 1
            nextGooseID := r.nextGooseID + 1
            callers := r.callers.set i (CallerPhase.done g) }
  | some (CallerPhase.done _) => r

/-- Run an arbitrary interleaving of caller steps. -/
def runSchedule (adkID : String) (r : ConcurrentRun) : List Nat → ConcurrentRun
  | [] => r
  | i :: rest => runSchedule adkID (stepCaller adkID r i) rest

/-- `proxy.RunSSERequest`: the decoded `run_sse` body. -/
structure RunSSERequest where
  newMessage : Option Content

/-- An outgoing backend invocation made while serving `run_sse`. -/
inductive BackendCall where
  | startAgent (workingDir : String)
  | reply (gooseSessionID : String)

/-- Outcome of `Handler.handleRunSSE`: an error response written before
streaming began, the list of SSE data frames written, or a panic inside the
event loop (a translator nil dereference). -/
inductive RunSSEResult where
  | httpError (status : Nat) (message : String)
  | stream (frames : List ADKEvent)
  | panic (message : String)

/-- The event loop of `handleRunSSE` (handler.go lines 125-152), without
cancellation: translate each received event, skip `nil` results, write the
rest.  The translator's returned Go `error` is always `nil`, so the
`err != nil → continue` branch is dead; an `Except.error` of the embedding
is a panic and aborts the loop.  `json.Marshal` of an `ADKEvent` never
fails, so the marshal-skip branch is dead as well. -/
def pumpEvents (invocationID : String) (nowNano nowSec : Int) :
    List SSEEvent → Except String (List ADKEvent)
  | [] => .ok []
  | sse :: rest =>
      match GooseSSEEventToADKEvent sse invocationID nowNano nowSec with
      | .error e => .error e
      | .ok adkEvent =>
          match pumpEvents invocationID nowNano nowSec rest with
          | .error e => .error e
          | .ok frames => .ok (adkEvent.toList ++ frames)

/-- `Handler.handleRunSSE` (handler.go lines 85-153).  `body` is the result
of JSON-decoding the request body; `startAgent` and `replyEvents` are the
outcomes of the backend `StartAgent` and `Reply` calls.  Returns the
response, the final registry state, and the backend calls issued, in
order. -/
def handleRunSSE (sm : SessionManager) (adkSessionID : String)
    (body : Except String RunSSERequest)
    (startAgent : Except String String)
    (replyEvents : Except String (List SSEEvent))
    (invocationID : String) (nowNano nowSec : Int) :
    RunSSEResult × SessionManager × List BackendCall :=
  match body with
  | .error e => (.httpError 400 ("decode request: " ++ e), sm, [])
  | .ok req =>
      match req.newMessage with
      | none => (.httpError 400 "new_message is required", sm, [])
      | some _ =>
          let r := sm.GetOrCreate adkSessionID startAgent
          let calls := if r.2.2 then [BackendCall.startAgent sm.workingDir] else []
          match r.1 with
          | .error e => (.httpError 500 ("session lookup: " ++ e), r.2.1, calls)
          | .ok gooseSessionID =>
              match replyEvents with
              | .error e =>
                  (.httpError 502 ("goose reply: " ++ e), r.2.1,
                   calls ++ [BackendCall.reply gooseSessionID])
              | .ok events =>
                  match pumpEvents invocationID nowNano nowSec events with
                  | .error e =>
                      (.panic e, r.2.1, calls ++ [BackendCall.reply gooseSessionID])
                  | .ok frames =>
                      (.stream frames, r.2.1,
                       calls ++ [BackendCall.reply gooseSessionID])

theorem mapLookup_delete (m : List (String × String)) (k k' : String) :
    mapLookup (mapDelete m k) k' = if k = k' then none else mapLookup m k' := by
  induction m with
  | nil => simp [mapDelete, mapLookup]
  | cons p rest ih =>
      by_cases hp : p.1 = k
      · rw [mapDelete, if_pos hp, ih]
        by_cases hk : k = k'
        · simp [hk]
        · simp only [if_neg hk]
          rw [mapLookup, if_neg (fun h => hk (hp.symm.trans h))]
      · rw [mapDelete, if_neg hp, mapLookup, ih]
        by_cases hpk : p.1 = k'
        · have hk : ¬k = k' := fun h => hp (hpk.trans h.symm)
          rw [if_pos hpk, if_neg hk, mapLookup, if_pos hpk]
        · by_cases hk : k = k'
          · simp [hpk, hk, mapLookup]
          · simp [hpk, hk, mapLookup]

theorem mapLookup_insert (m : List (String × String)) (k v k' : String) :
    mapLookup (mapInsert m k v) k' = if k = k' then some v else mapLookup m k' := by
  rw [mapInsert, mapLookup, mapLookup_delete]
  by_cases hk : k = k' <;> simp [hk]

/-- Installing a fresh pair on both tables preserves the bijection. -/
theorem bijective_install (sm : SessionManager) (a g : String)
    (hb : Bijective sm)
    (ha : mapLookup sm.adkToGoose a = none)
    (hg : mapLookup sm.gooseToADK g = none) :
    Bijective { sm with adkToGoose := mapInsert sm.adkToGoose a g
                        gooseToADK := mapInsert sm.gooseToADK g a } := by
  intro a' g'
  simp only [mapLookup_insert]
  by_cases haa : a = a'
  · by_cases hgg : g = g'
    · simp [haa, hgg]
    · simp only [if_pos haa, if_neg hgg]
      constructor
      · intro h
        exact absurd (congrArg (fun o => o = some g') h).mpr (by simp [hgg])
      · intro h
        have := (hb a' g').mpr h
        rw [← haa] at this
        rw [ha] at this
        exact absurd this (by simp)
  · by_cases hgg : g = g'
    · simp only [if_neg haa, if_pos hgg]
      constructor
      · intro h
        have := (hb a' g).mp (hgg ▸ h)
        rw [hg] at this
        exact absurd this (by simp)
      · intro h
        exact absurd ((Option.some.injEq _ _).mp h) haa
    · simp only [if_neg haa, if_neg hgg]
      exact hb a' g'

/-- Deleting a mapped pair from both tables preserves the bijection. -/
theorem bijective_remove (sm : SessionManager) (a g : String)
    (hb : Bijective sm)
    (hm : mapLookup sm.adkToGoose a = some g) :
    Bijective { sm with adkToGoose := mapDelete sm.adkToGoose a
                        gooseToADK := mapDelete sm.gooseToADK g } := by
  have hrev : mapLookup sm.gooseToADK g = some a := (hb a g).mp hm
  intro a' g'
  simp only [mapLookup_delete]
  by_cases haa : a = a'
  · by_cases hgg : g = g'
    · simp [haa, hgg]
    · simp only [if_pos haa, if_neg hgg]
      constructor
      · intro h
        exact absurd h (by simp)
      · intro h
        have := (hb a' g').mpr h
        rw [← haa, hm] at this
        exact (hgg ((Option.some.injEq _ _).mp this)).elim
  · by_cases hgg : g = g'
    · simp only [if_neg haa, if_pos hgg]
      constructor
      · intro h
        have := (hb a' g').mp h
        rw [← hgg, hrev] at this
        exact (haa ((Option.some.injEq _ _).mp this)).elim
      · intro h
        exact absurd h (by simp)
    · simp only [if_neg haa, if_neg hgg]
      exact hb a' g'

/-- A single `GetOrCreate`/`Stop` operation whose fresh-id side condition
holds preserves the bijection. -/
theorem bijective_applySMOp (sm : SessionManager) (op : SMOp)
    (hb : Bijective sm) (hf : opFresh sm op = true) :
    Bijective (applySMOp sm op) := by
  cases op with
  | getOrCreate a g =>
      rcases hm : mapLookup sm.adkToGoose a with _ | gooseID
      · rw [opFresh, hm] at hf
        simp only [Option.isSome_none, Bool.false_or, Option.isNone_iff_eq_none] at hf
        simp only [applySMOp, SessionManager.GetOrCreate, hm]
        exact bijective_install sm a g hb hm hf
      · simp only [applySMOp, SessionManager.GetOrCreate, hm]
        exact hb
  | stop a =>
      rcases hm : mapLookup sm.adkToGoose a with _ | gooseID
      · simp only [applySMOp, SessionManager.Stop, hm]
        exact hb
      · simp only [applySMOp, SessionManager.Stop, hm]
        exact bijective_remove sm a gooseID hb hm

/-- Claim C1: for every sequence of `GetOrCreate` and `Stop` operations on
the `SessionManager` in which each backend session-start returns a fresh
backend id, the two mapping tables remain a bijection: a forward entry
`a ↦ g` exists exactly when the reverse entry `g ↦ a` does. -/
theorem sessionManager_tables_bijective (sm : SessionManager) (ops : List SMOp)
    (hb : Bijective sm) (hf : freshAlong sm ops = true) :
    Bijective (runOps sm ops) := by
  induction ops generalizing sm with
  | nil => exact hb
  | cons op rest ih =>
      rw [freshAlong, Bool.and_eq_true] at hf
      exact ih (applySMOp sm op) (bijective_applySMOp sm op hb hf.1) hf.2

/-- The freshly constructed registry is trivially bijective. -/
theorem initialSessionManager_bijective (workingDir : String) :
    Bijective (initialSessionManager workingDir) := by
  intro a g
  simp [initialSessionManager, mapLookup]

/-- Witness for C1: a concrete history that creates, stops and re-creates
sessions (reusing a backend id only after it was stopped) keeps the tables
bijective. -/
theorem sessionManager_tables_bijective_witness :
    Bijective (runOps (initialSessionManager "/tmp")
      [SMOp.getOrCreate "a1" "g1", SMOp.getOrCreate "a2" "g2",
       SMOp.stop "a1", SMOp.getOrCreate "a3" "g1"]) :=
  sessionManager_tables_bijective (initialSessionManager "/tmp") _
    (initialSessionManager_bijective "/tmp") (by decide)

/-- Claim C4: `GetOrCreate` returns the existing backend id unchanged when a
mapping is present, issuing no `StartAgent` call; when no mapping exists and
the backend session-start fails, it returns the wrapped error and leaves the
registry unchanged, installing no mapping in either table. -/
theorem getOrCreate_hit_and_failure (sm : SessionManager) (a e : String)
    (startAgent : Except String String) :
    (∀ g, mapLookup sm.adkToGoose a = some g →
        sm.GetOrCreate a startAgent = (.ok g, sm, false)) ∧
    (mapLookup sm.adkToGoose a = none →
        sm.GetOrCreate a (.error e) =
          (.error ("start goose agent for ADK session " ++ a ++ ": " ++ e),
           sm, true)) := by
  constructor
  · intro g hm
    simp [SessionManager.GetOrCreate, hm]
  · intro hm
    simp [SessionManager.GetOrCreate, hm]

/-- Concrete registry with one installed mapping, for witnesses. -/
def smOneMapping : SessionManager :=
  { adkToGoose := [("a1", "g1")], gooseToADK := [("g1", "a1")],
    workingDir := "/tmp" }

/-- Witness for C4: on a registry mapping `a1 ↦ g1`, `GetOrCreate` returns
`g1` without calling the backend; on the empty registry a failing backend
start surfaces the wrapped error and leaves the state empty. -/
theorem getOrCreate_hit_and_failure_witness :
    smOneMapping.GetOrCreate "a1" (.ok "other") =
      (.ok "g1", smOneMapping, false) ∧
    (initialSessionManager "/tmp").GetOrCreate "a1" (.error "boom") =
      (.error "start goose agent for ADK session a1: boom",
       initialSessionManager "/tmp", true) :=
  ⟨(getOrCreate_hit_and_failure smOneMapping "a1" "boom" (.ok "other")).1 "g1" rfl,
   (getOrCreate_hit_and_failure (initialSessionManager "/tmp") "a1" "boom"
     (.error "boom")).2 rfl⟩

/-- Claim C5: `Stop` on an unmapped external id fails with the dedicated
not-found error — a value distinct from every backend (transport) error —
and issues no backend `StopAgent` call; on a mapped id it removes both
mapping directions and then issues the backend stop call for the removed
backend id, surfacing that call's outcome. -/
theorem stop_notFound_and_removal (sm : SessionManager) (a : String)
    (stopAgent : String → Except String Unit) :
    (mapLookup sm.adkToGoose a = none →
        sm.Stop a stopAgent = (.error (.notFound a), sm, none) ∧
        ∀ e, StopError.notFound a ≠ StopError.backend e) ∧
    (∀ g, mapLookup sm.adkToGoose a = some g →
        sm.Stop a stopAgent =
          ((match stopAgent g with
            | .ok _ => .ok ()
            | .error e => .error (.backend e)),
           { sm with adkToGoose := mapDelete sm.adkToGoose a
                     gooseToADK := mapDelete sm.gooseToADK g },
           some g)) := by
  constructor
  · intro hm
    refine ⟨by simp [SessionManager.Stop, hm], fun e h => ?_⟩
    exact StopError.noConfusion h
  · intro g hm
    rcases hstop : stopAgent g with e | u
    · simp [SessionManager.Stop, hm, hstop]
    · simp [SessionManager.Stop, hm, hstop]

/-- Witness for C5: stopping an unknown id on the empty registry yields the
not-found error and contacts no backend; stopping `a1` on a registry mapping
`a1 ↦ g1` empties both tables and issues the backend stop for `g1`. -/
theorem stop_notFound_and_removal_witness :
    (initialSessionManager "/tmp").Stop "a1" (fun _ => .ok ()) =
      (.error (.notFound "a1"), initialSessionManager "/tmp", none) ∧
    smOneMapping.Stop "a1" (fun _ => .ok ()) =
      (.ok (), initialSessionManager "/tmp", some "g1") :=
  ⟨((stop_notFound_and_removal (initialSessionManager "/tmp") "a1"
      (fun _ => .ok ())).1 rfl).1,
   (stop_notFound_and_removal smOneMapping "a1" (fun _ => .ok ())).2 "g1" rfl⟩

/-- Invariant tying the shared tables to the callers: while no mapping for
`adkID` exists, no `StartAgent` call has been made and no caller has
returned; once a mapping `adkID ↦ g` exists, exactly one `StartAgent` call
has been made and every returned caller observed `g`. -/
def SameGooseInv (adkID : String) (r : ConcurrentRun) : Prop :=
  (mapLookup r.sm.adkToGoose adkID = none →
      r.createCalls = 0 ∧ ∀ c ∈ r.callers, ∀ g, c ≠ CallerPhase.done g) ∧
  (∀ g, mapLookup r.sm.adkToGoose adkID = some g →
      r.createCalls = 1 ∧
        ∀ c ∈ r.callers, ∀ g', c = CallerPhase.done g' → g' = g)

theorem stepCaller_inv (adkID : String) (r : ConcurrentRun) (i : Nat)
    (h : SameGooseInv adkID r) : SameGooseInv adkID (stepCaller adkID r i) := by
  obtain ⟨hnone, hsome⟩ := h
  rcases hget : r.callers[i]? with _ | phase
  · simpa [stepCaller, hget] using ⟨hnone, hsome⟩
  · rcases hm : mapLookup r.sm.adkToGoose adkID with _ | g
    · cases phase with
      | pending =>
          simp only [stepCaller, hget, hm]
          refine ⟨fun _ => ⟨(hnone hm).1, ?_⟩, fun g hg => absurd (hm ▸ hg) (by simp)⟩
          intro c hc g
          rcases List.mem_or_eq_of_mem_set hc with hold | hnew
          · exact (hnone hm).2 c hold g
          · rw [hnew]
            exact fun hh => CallerPhase.noConfusion hh
      | waiting =>
          simp only [stepCaller, hget, hm]
          have hlook : mapLookup
              (mapInsert r.sm.adkToGoose adkID (freshGooseID r.nextGooseID))
              adkID = some (freshGooseID r.nextGooseID) := by
            rw [mapLookup_insert, if_pos rfl]
          refine ⟨fun hg => absurd (hlook ▸ hg) (by simp), fun g hg => ?_⟩
          rw [hlook] at hg
          obtain rfl := (Option.some.injEq _ _).mp hg
          refine ⟨by rw [(hnone hm).1], ?_⟩
          intro c hc g' hdone
          rcases List.mem_or_eq_of_mem_set hc with hold | hnew
          · exact absurd hdone ((hnone hm).2 c hold g')
          · rw [hnew] at hdone
            exact (CallerPhase.done.injEq _ _).mp hdone.symm
      | done g' =>
          simpa [stepCaller, hget, hm] using ⟨hnone, hsome⟩
    · have hreduce : ∀ ph, r.callers[i]? = some ph →
          SameGooseInv adkID { r with callers := r.callers.set i (CallerPhase.done g) } := by
        intro ph _
        refine ⟨fun hg => absurd (hm ▸ hg) (by simp), fun g'' hg => ?_⟩
        rw [hm] at hg
        have hgg : g = g'' := (Option.some.injEq _ _).mp hg
        refine ⟨(hsome g hm).1, ?_⟩
        intro c hc g' hdone
        rcases List.mem_or_eq_of_mem_set hc with hold | hnew
        · rw [← hgg]
          exact (hsome g hm).2 c hold g' hdone
        · rw [hnew] at hdone
          rw [← hgg]
          exact (CallerPhase.done.injEq _ _).mp hdone.symm
      cases phase with
      | pending =>
          simpa only [stepCaller, hget, hm] using hreduce CallerPhase.pending hget
      | waiting =>
          simpa only [stepCaller, hget, hm] using hreduce CallerPhase.waiting hget
      | done g'' =>
          simpa [stepCaller, hget, hm] using ⟨hnone, hsome⟩

theorem runSchedule_inv (adkID : String) (r : ConcurrentRun)
    (sched : List Nat) (h : SameGooseInv adkID r) :
    SameGooseInv adkID (runSchedule adkID r sched) := by
  induction sched generalizing r with
  | nil => exact h
  | cons i rest ih => exact ih (stepCaller adkID r i) (stepCaller_inv adkID r i h)

theorem stepCaller_length (adkID : String) (r : ConcurrentRun) (i : Nat) :
    (stepCaller adkID r i).callers.length = r.callers.length := by
  rcases hget : r.callers[i]? with _ | phase
  · simp [stepCaller, hget]
  · rcases hm : mapLookup r.sm.adkToGoose adkID with _ | g <;>
      cases phase <;> simp [stepCaller, hget, hm, List.length_set]

theorem runSchedule_length (adkID : String) (r : ConcurrentRun)
    (sched : List Nat) :
    (runSchedule adkID r sched).callers.length = r.callers.length := by
  induction sched generalizing r with
  | nil => rfl
  | cons i rest ih =>
      rw [runSchedule, ih (stepCaller adkID r i), stepCaller_length]

theorem initRun_inv (adkID workingDir : String) (n : Nat) :
    SameGooseInv adkID (initRun n workingDir) := by
  constructor
  · intro _
    refine ⟨rfl, ?_⟩
    intro c hc g
    rw [List.eq_of_mem_replicate hc]
    exact fun hh => CallerPhase.noConfusion hh
  · intro g hg
    exact absurd hg (by simp [initRun, initialSessionManager, mapLookup])

/-- Claim C2: for every interleaving of any number of concurrent
`GetOrCreate` callers sharing one unseen external id (modelled as arbitrary
schedules of the two lock-protected sections of `session.go`), if all
callers complete then the backend `StartAgent` call was invoked exactly
once, and all callers observed the same backend id. -/
theorem concurrent_getOrCreate_single_creation (adkID workingDir : String)
    (n : Nat) (sched : List Nat) (hn : 0 < n)
    (hdone : ∀ c ∈ (runSchedule adkID (initRun n workingDir) sched).callers,
        ∃ g, c = CallerPhase.done g) :
    (runSchedule adkID (initRun n workingDir) sched).createCalls = 1 ∧
    ∀ c c', c ∈ (runSchedule adkID (initRun n workingDir) sched).callers →
      c' ∈ (runSchedule adkID (initRun n workingDir) sched).callers →
      ∀ g g', c = CallerPhase.done g → c' = CallerPhase.done g' → g = g' := by
  set r := runSchedule adkID (initRun n workingDir) sched with hr
  have hinv := runSchedule_inv adkID (initRun n workingDir) sched
    (initRun_inv adkID workingDir n)
  rw [← hr] at hinv
  have hlen : r.callers.length = n := by
    rw [hr, runSchedule_length]
    simp [initRun]
  have hne : r.callers ≠ [] := by
    apply List.ne_nil_of_length_pos
    rw [hlen]
    exact hn
  obtain ⟨c0, hc0⟩ := List.exists_mem_of_ne_nil r.callers hne
  obtain ⟨g0, hg0⟩ := hdone c0 hc0
  rcases hm : mapLookup r.sm.adkToGoose adkID with _ | g
  · exact absurd hg0 ((hinv.1 hm).2 c0 hc0 g0)
  · obtain ⟨hcount, hall⟩ := hinv.2 g hm
    refine ⟨hcount, ?_⟩
    intro c c' hc hc' g1 g2 h1 h2
    rw [hall c hc g1 h1, hall c' hc' g2 h2]

/-- Witness for C2: two callers racing for `s1` under the interleaving
read/read/write/write — the worst case for double-checked locking — issue
exactly one `StartAgent` call. -/
theorem concurrent_getOrCreate_single_creation_witness :
    (runSchedule "s1" (initRun 2 "/tmp") [0, 1, 0, 1]).createCalls = 1 :=
  (concurrent_getOrCreate_single_creation "s1" "/tmp" 2 [0, 1, 0, 1]
    (by decide)
    (by
      intro c hc
      have hcallers : (runSchedule "s1" (initRun 2 "/tmp") [0, 1, 0, 1]).callers =
          [CallerPhase.done "goose-0", CallerPhase.done "goose-0"] := by rfl
      rw [hcallers] at hc
      simp only [List.mem_cons, List.not_mem_nil, or_false] at hc
      rcases hc with h | h
      · exact ⟨"goose-0", h⟩
      · exact ⟨"goose-0", h⟩)).1

/-- Claim C9: the reply-stream line loop is per-line and best-effort: blank
lines, comment-marker lines and other non-data lines contribute nothing;
a data-prefixed line contributes its decoded event, or nothing when decoding
fails; every subsequent line is still parsed, so one malformed frame never
terminates the stream, and no decode failure surfaces to the caller (the
result type carries no error). -/
theorem parseReplyLines_best_effort (decode : String → Option SSEEvent)
    (lines : List String) :
    parseReplyLines decode lines = lines.filterMap (fun line =>
      if line = "" ∨ line.startsWith ":" then none
      else if line.startsWith "data: " then decode (trimData line)
      else none) := by
  induction lines with
  | nil => rfl
  | cons line rest ih =>
      by_cases hb : line = "" ∨ line.startsWith ":"
      · simp [parseReplyLines, List.filterMap_cons, hb, ih]
      · by_cases hd : line.startsWith "data: "
        · rcases hdec : decode (trimData line) with _ | e <;>
            simp [parseReplyLines, List.filterMap_cons, hb, hd, hdec, ih]
        · simp [parseReplyLines, List.filterMap_cons, hb, hd, ih]

/-- Claim C10: a decoded `run_sse` body without the `new_message` field is
rejected with a 400 client error before any backend call is made: no
`StartAgent`, no `Reply`, registry unchanged. -/
theorem handleRunSSE_missing_message (sm : SessionManager)
    (adkSessionID : String) (req : RunSSERequest)
    (startAgent : Except String String)
    (replyEvents : Except String (List SSEEvent))
    (invocationID : String) (nowNano nowSec : Int)
    (h : req.newMessage = none) :
    handleRunSSE sm adkSessionID (.ok req) startAgent replyEvents
        invocationID nowNano nowSec =
      (.httpError 400 "new_message is required", sm, []) := by
  simp [handleRunSSE, h]

/-- Witness for C10: on the empty registry, a body `\x7b\x7d` (decoded, but
with no `new_message`) is rejected with 400 and zero backend calls even
though the backend would have answered. -/
theorem handleRunSSE_missing_message_witness :
    handleRunSSE (initialSessionManager "/tmp") "s1"
        (.ok { newMessage := none }) (.ok "g1") (.ok []) "inv" 0 0 =
      (.httpError 400 "new_message is required",
       initialSessionManager "/tmp", []) :=
  handleRunSSE_missing_message (initialSessionManager "/tmp") "s1"
    { newMessage := none } (.ok "g1") (.ok []) "inv" 0 0 rfl

/-- A content part whose type is mapped, and whose tool request (if any)
carries a tool call, translates without fault. -/
theorem translateMessageContent_ok (mc : MessageContent)
    (h : mc.type = "toolRequest" → mc.toolCall ≠ none) :
    ∃ p, translateMessageContent mc = .ok p := by
  rw [translateMessageContent]
  by_cases h1 : mc.type = "text"
  · exact ⟨_, by rw [if_pos h1]⟩
  · rw [if_neg h1]
    by_cases h2 : mc.type = "toolRequest"
    · rw [if_pos h2]
      rcases htc : mc.toolCall with _ | tc
      · exact absurd htc (h h2)
      · exact ⟨_, rfl⟩
    · rw [if_neg h2]
      by_cases h3 : mc.type = "toolResponse"
      · rw [if_pos h3]
        exact ⟨_, rfl⟩
      · rw [if_neg h3]
        by_cases h4 : mc.type = "thinking" ∨ mc.type = "reasoning"
        · rw [if_pos h4]
          exact ⟨_, rfl⟩
        · rw [if_neg h4]
          exact ⟨_, rfl⟩

/-- A content list whose tool-request parts all carry tool calls translates
without fault. -/
theorem goosePartsToADK_ok (l : List MessageContent)
    (h : ∀ mc ∈ l, mc.type = "toolRequest" → mc.toolCall ≠ none) :
    ∃ ps, goosePartsToADK l = .ok ps := by
  induction l with
  | nil => exact ⟨[], rfl⟩
  | cons mc rest ih =>
      obtain ⟨p, hp⟩ := translateMessageContent_ok mc (h mc (List.mem_cons_self mc rest))
      obtain ⟨ps, hps⟩ := ih (fun x hx => h x (List.mem_cons_of_mem mc hx))
      exact ⟨p.toList ++ ps, by rw [goosePartsToADK, hp, hps]⟩

/-- Counterexample to C3 as stated: an event of the unrecognized type
`"StatusUpdate"` is not a ping, yet translating it emits no outbound
event. -/
def unknownTypeEvent : SSEEvent := { type := "StatusUpdate" }

theorem translate_unknown_type_counterexample :
    unknownTypeEvent.type ≠ "Ping" ∧
    GooseSSEEventToADKEvent unknownTypeEvent "inv" 0 0 = .ok none :=
  ⟨by decide, rfl⟩

/-- Claim C3 (amended): translating a ping or an unrecognized-type event
emits no outbound event; translating a finish or error event emits exactly
one; translating a message event whose message payload is present (and whose
tool-request parts carry tool calls, so the translator does not fault)
emits exactly one. -/
theorem translate_event_multiplicity (sse : SSEEvent) (inv : String)
    (nowNano nowSec : Int) :
    (sse.type = "Ping" →
      GooseSSEEventToADKEvent sse inv nowNano nowSec = .ok none) ∧
    (sse.type ∉ (["Message", "Finish", "Error", "Ping"] : List String) →
      GooseSSEEventToADKEvent sse inv nowNano nowSec = .ok none) ∧
    ((sse.type = "Finish" ∨ sse.type = "Error") →
      ∃ evt, GooseSSEEventToADKEvent sse inv nowNano nowSec = .ok (some evt)) ∧
    (sse.type = "Message" →
      ∀ msg, sse.message = some msg →
        (∀ mc ∈ msg.content, mc.type = "toolRequest" → mc.toolCall ≠ none) →
        ∃ evt, GooseSSEEventToADKEvent sse inv nowNano nowSec = .ok (some evt)) := by
  refine ⟨?_, ?_, ?_, ?_⟩
  · intro h
    simp [GooseSSEEventToADKEvent, h]
  · intro h
    simp only [List.mem_cons, List.not_mem_nil, or_false, not_or] at h
    obtain ⟨h1, h2, h3, h4⟩ := h
    simp [GooseSSEEventToADKEvent, h1, h2, h3, h4]
  · intro h
    rcases h with h | h <;> simp [GooseSSEEventToADKEvent, h]
  · intro h msg hmsg hwf
    obtain ⟨ps, hps⟩ := goosePartsToADK_ok msg.content hwf
    simp [GooseSSEEventToADKEvent, h, hmsg, GooseMessageToADKContent, hps]

/-- A bare finish event, used as concrete input by witnesses. -/
def finishOnlyEvent : SSEEvent := { type := "Finish" }

/-- Witness for C3 (amended): the bare finish event emits exactly one
outbound event. -/
theorem translate_event_multiplicity_witness :
    ∃ evt, GooseSSEEventToADKEvent finishOnlyEvent "inv" 0 0 = .ok (some evt) :=
  (translate_event_multiplicity finishOnlyEvent "inv" 0 0).2.2.1 (Or.inl rfl)

/-- Claim C6: for every invocation id, translating a finish event yields an
outbound event carrying that invocation id with `turnComplete = true` and,
when a token state is present, the usage counters copied verbatim under the
renaming input→prompt, output→candidates, total→total (and no usage when
absent); translating a ping event or an event of unrecognized type yields no
outbound event. -/
theorem translate_finish_and_suppression (sse : SSEEvent) (inv : String)
    (nowNano nowSec : Int) :
    (sse.type = "Finish" →
      ∃ evt, GooseSSEEventToADKEvent sse inv nowNano nowSec = .ok (some evt) ∧
        evt.turnComplete = true ∧ evt.invocationID = inv ∧
        (∀ ts, sse.tokenState = some ts →
          evt.usageMetadata = some { promptTokenCount := ts.inputTokens
                                     candidatesTokenCount := ts.outputTokens
                                     totalTokenCount := ts.totalTokens }) ∧
        (sse.tokenState = none → evt.usageMetadata = none)) ∧
    (sse.type = "Ping" →
      GooseSSEEventToADKEvent sse inv nowNano nowSec = .ok none) ∧
    (sse.type ∉ (["Message", "Finish", "Error", "Ping"] : List String) →
      GooseSSEEventToADKEvent sse inv nowNano nowSec = .ok none) := by
  refine ⟨?_, ?_, ?_⟩
  · intro h
    rcases hts : sse.tokenState with _ | ts
    · refine ⟨{ id := "evt_" ++ toString nowNano, time := nowSec
                invocationID := inv, author := "goose"
                turnComplete := true }, ?_, rfl, rfl, ?_, fun _ => rfl⟩
      · simp [GooseSSEEventToADKEvent, h, hts]
      · intro ts2 hts2
        exact absurd hts2 (by simp)
    · refine ⟨{ id := "evt_" ++ toString nowNano, time := nowSec
                invocationID := inv, author := "goose", turnComplete := true
                usageMetadata := some { promptTokenCount := ts.inputTokens
                                        candidatesTokenCount := ts.outputTokens
                                        totalTokenCount := ts.totalTokens } },
          ?_, rfl, rfl, ?_, ?_⟩
      · simp [GooseSSEEventToADKEvent, h, hts, GooseTokenStateToUsageMetadata]
      · intro ts2 hts2
        have he : ts = ts2 := (Option.some.injEq _ _).mp hts2
        rw [← he]
      · intro hnone
        exact absurd hnone (by simp)
  · intro h
    simp [GooseSSEEventToADKEvent, h]
  · intro h
    simp only [List.mem_cons, List.not_mem_nil, or_false, not_or] at h
    obtain ⟨h1, h2, h3, h4⟩ := h
    simp [GooseSSEEventToADKEvent, h1, h2, h3, h4]

/-- A finish event carrying token usage, used as concrete witness input. -/
def finishUsageEvent : SSEEvent :=
  { type := "Finish"
    tokenState := some { inputTokens := 10, outputTokens := 5, totalTokens := 15 } }

/-- Witness for C6: the finish event with counters 10/5/15 translates to a
turn-complete event for the requested invocation id whose usage is copied
verbatim. -/
theorem translate_finish_and_suppression_witness :
    ∃ evt, GooseSSEEventToADKEvent finishUsageEvent "inv" 0 0 = .ok (some evt) ∧
      evt.turnComplete = true ∧ evt.invocationID = "inv" ∧
      (∀ ts, finishUsageEvent.tokenState = some ts →
        evt.usageMetadata = some { promptTokenCount := ts.inputTokens
                                   candidatesTokenCount := ts.outputTokens
                                   totalTokenCount := ts.totalTokens }) ∧
      (finishUsageEvent.tokenState = none → evt.usageMetadata = none) :=
  (translate_finish_and_suppression finishUsageEvent "inv" 0 0).1 rfl

/-- The extraction loop agrees with a `find?` over the same predicate. -/
theorem firstNonEmptyText_eq_find (l : List MessageContent) :
    firstNonEmptyText l =
      (l.find? (fun c => c.type == "text" && c.text != "")).map
        MessageContent.text := by
  induction l with
  | nil => rfl
  | cons c rest ih =>
      by_cases h : c.type = "text" ∧ c.text ≠ ""
      · have hb : (c.type == "text" && c.text != "") = true := by
          simp [h.1, h.2]
        simp [firstNonEmptyText, List.find?_cons, hb, h]
      · have hb : (c.type == "text" && c.text != "") = false := by
          rcases not_and_or.mp h with h1 | h2
          · simp [h1]
          · simp [not_not.mp h2]
        simp [firstNonEmptyText, List.find?_cons, hb, h, ih]

/-- Counterexample input for C7: the tool result's first text-typed sub-part
carries empty text, and a later text-typed sub-part carries `"hi"`. -/
def toolResultEmptyThenFull : ToolResult :=
  ToolResult.mk [mkTextContent "", mkTextContent "hi"] false none

/-- Counterexample to C7 as stated: on `toolResultEmptyThenFull` the code
extracts `"hi"`, not the text of the first text-typed sub-part (the empty
string), so extraction does not follow the claimed preference order. -/
theorem extractToolResultText_spec_counterexample :
    extractToolResultText (some toolResultEmptyThenFull) ≠
      extractToolResultTextSpec (some toolResultEmptyThenFull) := by decide

/-- Claim C7 (amended): the translated function-response text is extracted
preferentially from the first text-typed sub-part carrying non-empty text,
falling back to the JSON-encoded structured payload, and finally to the
empty string. -/
theorem extractToolResultText_preference (tr : Option ToolResult) :
    extractToolResultText tr = extractToolResultTextAmended tr := by
  cases tr with
  | none => rfl
  | some t =>
      rw [extractToolResultText, extractToolResultTextAmended,
        firstNonEmptyText_eq_find]
      rcases hfind : List.find? (fun c => c.type == "text" && c.text != "") t.content
        with _ | c
      · rw [hfind]
        rfl
      · rw [hfind]
        rfl

/-- A message-typed backend event whose message payload is absent, as
produced by decoding the frame `data: \x7b"type":"Message"\x7d`. -/
def messageWithoutPayload : SSEEvent := { type := "Message" }

/-- Claim C8 (code bug evidence): translating the message-typed event with
absent message payload faults — the embedded translator reaches the Go nil
dereference of `msg.Role` in `GooseMessageToADKContent` — instead of
completing and yielding zero or one outbound events. -/
theorem translate_nil_message_faults :
    GooseSSEEventToADKEvent messageWithoutPayload "inv" 0 0 =
      .error nilDereference := rfl
